import Mathlib

/-!
Verification of the silver-tik scraper repository.

The repository holds two variants of a follower/following scraper:
* `src/index.ts` — the plain variant (`scrapeFollowers`), embedded below in
  namespace `IndexTs`;
* `src/unnamed/part_000` — the stealth variant (`class TikTokScraper`),
  embedded below in namespace `Stealth`.

Effectful browser calls (height measurement, element extraction, selector
matching) are modelled as function parameters, so every theorem quantifies
over all behaviours of the live page.
-/

set_option linter.unusedVariables false

namespace SilverTik

/-- Observable effects of the run preamble: browser launch, navigation to the
login page, the environment-variable presence check failing (the thrown
error), and entering the login flow. -/
inductive Event where
  | launchBrowser
  | navigateLogin
  | configCheckFailed
  | loginFlow
  deriving DecidableEq

/-- JS truthiness of an optional environment string: an unset variable
(`none`) and the empty string are both falsy. -/
def truthy (s : Option String) : Bool := !((s.getD ("")) == (""))

namespace IndexTs

/-- `interface Follower` of index.ts (lines 16–20). -/
structure Follower where
  username : String
  nickname : String
  profileUrl : String
  deriving DecidableEq

/-- index.ts lines 393–397: a record is appended only when its username is
truthy (non-empty) and no stored record already has that username. -/
def addFollower (acc : List Follower) (u : Follower) : List Follower :=
  if u.username != ("") && !(acc.any (fun f => f.username == u.username)) then
    acc ++ [u]
  else acc

/-- One extraction pass (index.ts lines 351–402): fold the per-element
insertion over the records read off the visible elements, in order. -/
def harvest (acc : List Follower) (rs : List Follower) : List Follower :=
  rs.foldl addFollower acc

/-- `followers.some(f => f.username === k)` — the accumulator already holds a
record with identity key `k`. -/
def hasKey (acc : List Follower) (k : String) : Bool :=
  acc.any (fun f => f.username == k)

/-- index.ts lines 288–297: try the candidate selectors in their listed order
and keep the first one that pageMatch the live page (`page.$ !== null`);
`none` models the sentinel empty string left when no candidate matched. -/
def resolve (pageMatch : String → Bool) : List String → Option String
  | [] => none
  | s :: rest => if pageMatch s then some s else resolve pageMatch rest

/-- The same loop, additionally recording which candidates were attempted
(the loop `break`s on the first match, so later candidates are not tried). -/
def resolveTrace (pageMatch : String → Bool) : List String → Option String × List String
  | [] => (none, [])
  | s :: rest =>
    if pageMatch s then (some s, [s])
    else
      let r := resolveTrace pageMatch rest
      (r.1, s :: r.2)

/-- Loop state of index.ts lines 309–311. `t` is the position in the stream
of document-height measurements (each `document.body.scrollHeight` read
consumes one; the stagnation retry reads a second one inside a round). -/
structure ScrollState where
  followers : List Follower
  previousHeight : Nat
  scrollAttempts : Nat
  t : Nat
  deriving DecidableEq

/-- index.ts lines 313–437, the `while (scrollAttempts < maxScrollAttempts)`
loop: extract, scroll, measure `newHeight`; if unchanged from
`previousHeight`, scroll once more after an elongated wait and `break` when
the re-measured `finalHeight` still equals `newHeight`.  `scrollAttempts`
grows by one on every non-breaking iteration and `maxScrollAttempts = 50`,
so the body runs at most `50 - scrollAttempts` times: fuel `50` from the
initial state computes the entire loop. -/
def scrollLoopAux (heights : Nat → Nat) (extracts : Nat → List Follower) :
    Nat → ScrollState → ScrollState
  | 0, st => st
  | fuel + 1, st =>
    if st.scrollAttempts < 50 then
      let acc := harvest st.followers (extracts st.scrollAttempts)
      let newHeight := heights st.t
      if newHeight = st.previousHeight then
        let finalHeight := heights (st.t + 1)
        if finalHeight = newHeight then
          { followers := acc, previousHeight := st.previousHeight,
            scrollAttempts := st.scrollAttempts, t := st.t + 2 }
        else
          scrollLoopAux heights extracts fuel
            { followers := acc, previousHeight := newHeight,
              scrollAttempts := st.scrollAttempts + 1, t := st.t + 2 }
      else
        scrollLoopAux heights extracts fuel
          { followers := acc, previousHeight := newHeight,
            scrollAttempts := st.scrollAttempts + 1, t := st.t + 1 }
    else st

/-- The full loop from index.ts's initial state
(`previousHeight = 0`, `scrollAttempts = 0`, empty accumulator). -/
def scrollLoop (heights : Nat → Nat) (extracts : Nat → List Follower) : ScrollState :=
  scrollLoopAux heights extracts 50
    { followers := [], previousHeight := 0, scrollAttempts := 0, t := 0 }

/-- index.ts lines 81–100 (`scrapeFollowers`), as the sequence of observable
effects: the browser is launched (line 82) and the login page navigation
performed (line 92) before the environment variables are checked (line 95);
a missing variable throws there, otherwise the login flow starts. -/
def scrapeFollowersTrace (email pw user : Option String) : List Event :=
  [Event.launchBrowser, Event.navigateLogin] ++
    (if truthy email && truthy pw && truthy user then [Event.loginFlow]
     else [Event.configCheckFailed])

end IndexTs

namespace Stealth

/-- `interface Follower` of part_000 (lines 16–19). -/
structure Follower where
  username : String
  profileUrl : String
  deriving DecidableEq

/-- `href.split('/@')` of part_000 line 259, specialised to the fixed
two-character separator: splits the character list at every occurrence of
`/` followed by `@` (the semantics of JS `String.prototype.split`). -/
def splitSlashAt : List Char → List (List Char)
  | [] => [[]]
  | '/' :: '@' :: rest => [] :: splitSlashAt rest
  | c :: rest =>
    match splitSlashAt rest with
    | [] => [[c]]
    | piece :: pieces => (c :: piece) :: pieces

/-- part_000 lines 256–264, one item of the `page.evaluate` map: `href` is
the first link's href or the empty string when there is no link
(`link?.href || ''`); `username` is `href.split('/@')[1] || ''` (the empty
string when the separator does not occur). -/
def extractItem (href : Option String) : Follower :=
  let h := href.getD ("")
  { username := String.mk (((splitSlashAt h.toList).drop 1).headD []),
    profileUrl := h }

/-- part_000 lines 267–272: push the record only when no stored record has
the same username; nothing is ever overwritten or removed. -/
def addUnique (acc : List Follower) (u : Follower) : List Follower :=
  if acc.any (fun f => f.username == u.username) then acc else acc ++ [u]

/-- One extraction pass (part_000 lines 254–272). -/
def harvest (acc : List Follower) (rs : List Follower) : List Follower :=
  rs.foldl addUnique acc

/-- `following.some(f => f.username === k)`. -/
def hasKey (acc : List Follower) (k : String) : Bool :=
  acc.any (fun f => f.username == k)

/-- Loop state of part_000 lines 247–250. -/
structure ScrapeState where
  following : List Follower
  previousHeight : Nat
  attempts : Nat
  noNewFollowingCount : Nat
  deriving DecidableEq

/-- One iteration of the while body, part_000 lines 254–287: extract and
merge, scroll and settle, measure `currentHeight`; an unchanged height
increments `noNewFollowingCount`, any change resets it to `0`;
`previousHeight` becomes the measured height and `attempts` grows by one.
Round `st.attempts` reads measurement `heights st.attempts` and extracts
`extracts st.attempts`. -/
def scrapeRound (heights : Nat → Nat) (extracts : Nat → List Follower)
    (st : ScrapeState) : ScrapeState :=
  let acc := harvest st.following (extracts st.attempts)
  let currentHeight := heights st.attempts
  { following := acc,
    previousHeight := currentHeight,
    attempts := st.attempts + 1,
    noNewFollowingCount :=
      if currentHeight = st.previousHeight then st.noNewFollowingCount + 1 else 0 }

/-- part_000 line 253: `while (attempts < 20 && noNewFollowingCount < 3)`.
`attempts` grows by one per iteration and the guard requires
`attempts < 20`, so the body runs at most `20 - attempts` times: fuel `20`
from the initial state computes the entire loop. -/
def scrapeLoopAux (heights : Nat → Nat) (extracts : Nat → List Follower) :
    Nat → ScrapeState → ScrapeState
  | 0, st => st
  | fuel + 1, st =>
    if st.attempts < 20 ∧ st.noNewFollowingCount < 3 then
      scrapeLoopAux heights extracts fuel (scrapeRound heights extracts st)
    else st

/-- part_000 lines 247–250: the loop starts with an empty accumulator,
`previousHeight = 0`, `attempts = 0` and `noNewFollowingCount = 0`. -/
def initState : ScrapeState :=
  { following := [], previousHeight := 0, attempts := 0, noNewFollowingCount := 0 }

/-- The full pagination loop of `scrapeFollowing` (part_000 lines 247–288). -/
def scrapeLoop (heights : Nat → Nat) (extracts : Nat → List Follower) : ScrapeState :=
  scrapeLoopAux heights extracts 20 initState

/-- Modelled from the spec: the spec names the loop's two exit causes
`EndOfList` (stagnation streak reached the threshold) and
`AttemptBudgetExhausted`; the code leaves the cause implicit in which
conjunct of the while guard became false. -/
inductive ExitReason where
  | endOfList
  | budgetExhausted
  deriving DecidableEq

/-- Modelled from the spec (see `ExitReason`): a final state whose stagnation
streak reached the threshold exited as `EndOfList`, otherwise the round
budget ran out. -/
def exitReasonOf (st : ScrapeState) : ExitReason :=
  if 3 ≤ st.noNewFollowingCount then ExitReason.endOfList
  else ExitReason.budgetExhausted

/-- part_000 lines 152–167 (`handleCaptcha`): wait up to 60 s
(`timeout: 60000`) for the captcha marker to disappear. `clearTime` is the
second at which the marker disappears (`none` when it never does); the
method returns `true` iff it cleared within the budget and `false` on
timeout (the `waitForFunction` rejection is caught). -/
def handleCaptcha (clearTime : Option Nat) : Bool :=
  match clearTime with
  | some tSec => decide (tSec ≤ 60)
  | none => false

/-- part_000 lines 96–150 (`login`): when the captcha marker is present the
code calls `handleCaptcha` but discards its boolean result; success is then
judged solely by the absence of the login button
(`!document.querySelector('[data-e2e="login-button"]')`). -/
def login (captchaMarker : Bool) (clearTime : Option Nat)
    (loginButtonAfter : Bool) : Bool :=
  let captchaOk := if captchaMarker then handleCaptcha clearTime else true
  !loginButtonAfter

/-- Terminal session states of one run. -/
inductive SessionResult where
  | authenticated
  | failed
  deriving DecidableEq

/-- part_000 lines 321–325 (`main`): a `false` return from `login` throws
`"Failed to log in"`, ending the run failed; a `true` return continues the
run as authenticated. -/
def sessionAfterLogin (captchaMarker : Bool) (clearTime : Option Nat)
    (loginButtonAfter : Bool) : SessionResult :=
  if login captchaMarker clearTime loginButtonAfter then
    SessionResult.authenticated
  else SessionResult.failed

/-- Errors of `scrapeFollowing`. -/
inductive ScrapeError where
  | noBrowser
  | thrown
  deriving DecidableEq

/-- part_000 lines 226–295 (`scrapeFollowing`): the page guard (line 227)
throws before the `try` block; inside the `try`, every error — selector-wait
timeouts as well as failures during a round — is caught and the empty list
returned, discarding whatever had been harvested (carried here as the
payload of the body's error). -/
def scrapeFollowingExc (pageReady : Bool)
    (body : Except (ScrapeError × List Follower) (List Follower)) :
    Except ScrapeError (List Follower) :=
  if pageReady then
    match body with
    | Except.ok l => Except.ok l
    | Except.error _ => Except.ok []
  else Except.error ScrapeError.noBrowser

/-- part_000 lines 306–318 (`main`): the environment presence check precedes
`scraper.init()` (the browser launch); a missing or empty variable throws
before any browser interaction. -/
def mainTrace (username password target : Option String) : List Event :=
  if truthy username && truthy password && truthy target then
    [Event.launchBrowser, Event.loginFlow]
  else [Event.configCheckFailed]

end Stealth

end SilverTik
namespace SilverTik

namespace Stealth

lemma addUnique_of_hasKey (acc : List Follower) (u : Follower)
    (h : hasKey acc u.username = true) : addUnique acc u = acc := by
  simp only [hasKey] at h
  simp [addUnique, h]

lemma hasKey_addUnique_self (acc : List Follower) (u : Follower) :
    hasKey (addUnique acc u) u.username = true := by
  cases hc : (acc.any fun f => f.username == u.username) with
  | true => simp [addUnique, hc, hasKey]
  | false => simp [addUnique, hc, hasKey, List.any_append]

lemma hasKey_addUnique_mono (acc : List Follower) (u : Follower) (k : String)
    (h : hasKey acc k = true) : hasKey (addUnique acc u) k = true := by
  simp only [hasKey] at h
  cases hc : (acc.any fun f => f.username == u.username) <;>
    simp [addUnique, hc, hasKey, List.any_append, h]

lemma hasKey_harvest_mono (rs : List Follower) :
    ∀ acc k, hasKey acc k = true → hasKey (harvest acc rs) k = true := by
  induction rs with
  | nil => intro acc k h; exact h
  | cons u rest ih =>
    intro acc k h
    have hstep : harvest acc (u :: rest) = harvest (addUnique acc u) rest := rfl
    rw [hstep]
    exact ih _ _ (hasKey_addUnique_mono _ _ _ h)

lemma hasKey_harvest_of_mem (rs : List Follower) :
    ∀ acc, ∀ u ∈ rs, hasKey (harvest acc rs) u.username = true := by
  induction rs with
  | nil => intro acc u h; cases h
  | cons v rest ih =>
    intro acc u h
    have hstep : harvest acc (v :: rest) = harvest (addUnique acc v) rest := rfl
    rw [hstep]
    rcases List.mem_cons.mp h with h1 | h2
    · subst h1
      exact hasKey_harvest_mono rest _ _ (hasKey_addUnique_self acc u)
    · exact ih _ u h2

lemma harvest_noop (rs : List Follower) :
    ∀ acc, (∀ u ∈ rs, addUnique acc u = acc) → harvest acc rs = acc := by
  induction rs with
  | nil => intro acc _; rfl
  | cons v rest ih =>
    intro acc h
    have hv : addUnique acc v = acc := h v (List.mem_cons_self _ _)
    have hstep : harvest acc (v :: rest) = harvest (addUnique acc v) rest := rfl
    rw [hstep, hv]
    exact ih acc (fun u hu => h u (List.mem_cons_of_mem _ hu))

lemma harvest_idem (acc rs : List Follower) :
    harvest (harvest acc rs) rs = harvest acc rs := by
  apply harvest_noop
  intro u hu
  exact addUnique_of_hasKey _ _ (hasKey_harvest_of_mem rs acc u hu)

lemma harvest_grows (rs : List Follower) :
    ∀ acc, ∃ more, harvest acc rs = acc ++ more := by
  induction rs with
  | nil => intro acc; exact ⟨[], by simp [harvest]⟩
  | cons v rest ih =>
    intro acc
    have hstep : harvest acc (v :: rest) = harvest (addUnique acc v) rest := rfl
    cases hc : (acc.any fun f => f.username == v.username) with
    | true =>
      have h1 : addUnique acc v = acc := by simp [addUnique, hc]
      obtain ⟨more, hm⟩ := ih acc
      exact ⟨more, by rw [hstep, h1, hm]⟩
    | false =>
      have h1 : addUnique acc v = acc ++ [v] := by simp [addUnique, hc]
      obtain ⟨more, hm⟩ := ih (acc ++ [v])
      refine ⟨v :: more, ?_⟩
      rw [hstep, h1, hm, List.append_assoc]
      rfl

lemma filter_harvest (k : String) (rs : List Follower) :
    ∀ acc, (harvest acc rs).filter (fun f => f.username == k)
      = acc.filter (fun f => f.username == k)
        ++ (if hasKey acc k = true then []
            else (rs.filter (fun f => f.username == k)).take 1) := by
  induction rs with
  | nil =>
    intro acc
    by_cases h : hasKey acc k = true <;> simp [harvest, h]
  | cons u rest ih =>
    intro acc
    have hstep : harvest acc (u :: rest) = harvest (addUnique acc u) rest := rfl
    rw [hstep, ih]
    by_cases hu : u.username = k
    · cases hp : hasKey acc k with
      | true =>
        have hpc : (acc.any fun f => f.username == u.username) = true := by
          simpa [hasKey, hu] using hp
        have h1 : addUnique acc u = acc := by simp [addUnique, hpc]
        rw [h1]
        simp [hp]
      | false =>
        have hpc : (acc.any fun f => f.username == u.username) = false := by
          simpa [hasKey, hu] using hp
        have h1 : addUnique acc u = acc ++ [u] := by simp [addUnique, hpc]
        rw [h1]
        simp [List.filter_append, List.filter_cons, hasKey, List.any_append, hu, hp]
    · cases hc : (acc.any fun f => f.username == u.username) with
      | true =>
        have h1 : addUnique acc u = acc := by simp [addUnique, hc]
        rw [h1]
        simp [List.filter_cons, hu]
      | false =>
        have h1 : addUnique acc u = acc ++ [u] := by simp [addUnique, hc]
        rw [h1]
        simp [List.filter_append, List.filter_cons, hasKey, List.any_append, hu]

end Stealth

end SilverTik
namespace SilverTik

namespace IndexTs

lemma addFollower_of_hasKey (acc : List Follower) (u : Follower)
    (h : hasKey acc u.username = true) : addFollower acc u = acc := by
  simp only [hasKey] at h
  simp [addFollower, h]

lemma addFollower_of_empty (acc : List Follower) (u : Follower)
    (h : u.username = ("")) : addFollower acc u = acc := by
  simp [addFollower, h]

lemma hasKey_addFollower_self (acc : List Follower) (u : Follower)
    (hne : ¬ (u.username = (""))) : hasKey (addFollower acc u) u.username = true := by
  cases hc : (acc.any fun f => f.username == u.username) with
  | true => simp [addFollower, hc, hasKey]
  | false => simp [addFollower, hc, hne, hasKey, List.any_append]

lemma hasKey_addFollower_mono (acc : List Follower) (u : Follower) (k : String)
    (h : hasKey acc k = true) : hasKey (addFollower acc u) k = true := by
  simp only [hasKey] at h
  cases hg : (u.username != ("") && !(acc.any fun f => f.username == u.username)) <;>
    simp [addFollower, hg, hasKey, List.any_append, h]

lemma hasKey_harvest_monoI (rs : List Follower) :
    ∀ acc k, hasKey acc k = true → hasKey (harvest acc rs) k = true := by
  induction rs with
  | nil => intro acc k h; exact h
  | cons u rest ih =>
    intro acc k h
    have hstep : harvest acc (u :: rest) = harvest (addFollower acc u) rest := rfl
    rw [hstep]
    exact ih _ _ (hasKey_addFollower_mono _ _ _ h)

lemma hasKey_harvest_of_memI (rs : List Follower) :
    ∀ acc, ∀ u ∈ rs, ¬ (u.username = ("")) →
      hasKey (harvest acc rs) u.username = true := by
  induction rs with
  | nil => intro acc u h; cases h
  | cons v rest ih =>
    intro acc u h hne
    have hstep : harvest acc (v :: rest) = harvest (addFollower acc v) rest := rfl
    rw [hstep]
    rcases List.mem_cons.mp h with h1 | h2
    · subst h1
      exact hasKey_harvest_monoI rest _ _ (hasKey_addFollower_self acc u hne)
    · exact ih _ u h2 hne

lemma harvest_noopI (rs : List Follower) :
    ∀ acc, (∀ u ∈ rs, addFollower acc u = acc) → harvest acc rs = acc := by
  induction rs with
  | nil => intro acc _; rfl
  | cons v rest ih =>
    intro acc h
    have hv : addFollower acc v = acc := h v (List.mem_cons_self _ _)
    have hstep : harvest acc (v :: rest) = harvest (addFollower acc v) rest := rfl
    rw [hstep, hv]
    exact ih acc (fun u hu => h u (List.mem_cons_of_mem _ hu))

lemma harvest_idemI (acc rs : List Follower) :
    harvest (harvest acc rs) rs = harvest acc rs := by
  apply harvest_noopI
  intro u hu
  by_cases he : u.username = ("")
  · exact addFollower_of_empty _ _ he
  · exact addFollower_of_hasKey _ _ (hasKey_harvest_of_memI rs acc u hu he)

lemma harvest_growsI (rs : List Follower) :
    ∀ acc, ∃ more, harvest acc rs = acc ++ more := by
  induction rs with
  | nil => intro acc; exact ⟨[], by simp [harvest]⟩
  | cons v rest ih =>
    intro acc
    have hstep : harvest acc (v :: rest) = harvest (addFollower acc v) rest := rfl
    cases hg : (v.username != ("") && !(acc.any fun f => f.username == v.username)) with
    | false =>
      have h1 : addFollower acc v = acc := by simp [addFollower, hg]
      obtain ⟨more, hm⟩ := ih acc
      exact ⟨more, by rw [hstep, h1, hm]⟩
    | true =>
      have h1 : addFollower acc v = acc ++ [v] := by simp [addFollower, hg]
      obtain ⟨more, hm⟩ := ih (acc ++ [v])
      refine ⟨v :: more, ?_⟩
      rw [hstep, h1, hm, List.append_assoc]
      rfl

lemma mem_addFollower (acc : List Follower) (u f : Follower)
    (h : f ∈ addFollower acc u) : f ∈ acc ∨ (f = u ∧ ¬ (u.username = (""))) := by
  unfold addFollower at h
  by_cases hg : (u.username != ("") && !(acc.any fun g => g.username == u.username)) = true
  · rw [if_pos hg] at h
    rcases List.mem_append.mp h with h1 | h2
    · exact Or.inl h1
    · have hne : u.username ≠ ("") := by
        have hb := (Bool.and_eq_true _ _).mp hg
        exact bne_iff_ne.mp hb.1
      exact Or.inr ⟨List.mem_singleton.mp h2, hne⟩
  · rw [if_neg hg] at h
    exact Or.inl h

lemma harvest_keys_ne_empty (rs : List Follower) :
    ∀ acc, (∀ f ∈ acc, ¬ (f.username = (""))) →
      ∀ f ∈ harvest acc rs, ¬ (f.username = ("")) := by
  induction rs with
  | nil => intro acc h f hf; exact h f hf
  | cons u rest ih =>
    intro acc h f hf
    have hstep : harvest acc (u :: rest) = harvest (addFollower acc u) rest := rfl
    rw [hstep] at hf
    refine ih (addFollower acc u) ?_ f hf
    intro g hg
    rcases mem_addFollower acc u g hg with h1 | ⟨rfl, h2⟩
    · exact h g h1
    · exact h2

lemma filter_harvestI (k : String) (hk : ¬ (k = (""))) (rs : List Follower) :
    ∀ acc, (harvest acc rs).filter (fun f => f.username == k)
      = acc.filter (fun f => f.username == k)
        ++ (if hasKey acc k = true then []
            else (rs.filter (fun f => f.username == k)).take 1) := by
  induction rs with
  | nil =>
    intro acc
    by_cases h : hasKey acc k = true <;> simp [harvest, h]
  | cons u rest ih =>
    intro acc
    have hstep : harvest acc (u :: rest) = harvest (addFollower acc u) rest := rfl
    rw [hstep, ih]
    by_cases hu : u.username = k
    · cases hp : hasKey acc k with
      | true =>
        have hpc : (acc.any fun f => f.username == u.username) = true := by
          simpa [hasKey, hu] using hp
        have h1 : addFollower acc u = acc := by simp [addFollower, hpc]
        rw [h1]
        simp [hp]
      | false =>
        have hpc : (acc.any fun f => f.username == u.username) = false := by
          simpa [hasKey, hu] using hp
        have hne : ¬ (u.username = ("")) := by rw [hu]; exact hk
        have h1 : addFollower acc u = acc ++ [u] := by simp [addFollower, hpc, hne]
        rw [h1]
        simp [List.filter_append, List.filter_cons, hasKey, List.any_append, hu, hp]
    · cases hg : (u.username != ("") && !(acc.any fun f => f.username == u.username)) with
      | false =>
        have h1 : addFollower acc u = acc := by simp [addFollower, hg]
        rw [h1]
        simp [List.filter_cons, hu]
      | true =>
        have h1 : addFollower acc u = acc ++ [u] := by simp [addFollower, hg]
        rw [h1]
        simp [List.filter_append, List.filter_cons, hasKey, List.any_append, hu]

end IndexTs

end SilverTik
namespace SilverTik

namespace Stealth

lemma scrapeRound_attempts (heights : Nat → Nat) (extracts : Nat → List Follower)
    (st : ScrapeState) :
    (scrapeRound heights extracts st).attempts = st.attempts + 1 := rfl

lemma scrapeLoopAux_attempts_le (heights : Nat → Nat) (extracts : Nat → List Follower) :
    ∀ fuel st, (scrapeLoopAux heights extracts fuel st).attempts ≤ max st.attempts 20 := by
  intro fuel
  induction fuel with
  | zero => intro st; exact Nat.le_max_left _ _
  | succ fuel ih =>
    intro st
    simp only [scrapeLoopAux]
    split
    case isTrue hg =>
      refine le_trans (ih _) ?_
      rw [scrapeRound_attempts]
      omega
    case isFalse hg => exact Nat.le_max_left _ _

lemma scrapeLoopAux_guard_false (heights : Nat → Nat) (extracts : Nat → List Follower) :
    ∀ fuel st, 20 - st.attempts ≤ fuel →
      ¬ ((scrapeLoopAux heights extracts fuel st).attempts < 20 ∧
         (scrapeLoopAux heights extracts fuel st).noNewFollowingCount < 3) := by
  intro fuel
  induction fuel with
  | zero =>
    intro st hf
    simp only [scrapeLoopAux]
    intro hcon
    omega
  | succ fuel ih =>
    intro st hf
    simp only [scrapeLoopAux]
    split
    case isTrue hg =>
      refine ih _ ?_
      rw [scrapeRound_attempts]
      omega
    case isFalse hg => exact hg

lemma scrapeLoopAux_following_grows (heights : Nat → Nat) (extracts : Nat → List Follower) :
    ∀ fuel st, ∃ more,
      (scrapeLoopAux heights extracts fuel st).following = st.following ++ more := by
  intro fuel
  induction fuel with
  | zero => intro st; exact ⟨[], by simp [scrapeLoopAux]⟩
  | succ fuel ih =>
    intro st
    simp only [scrapeLoopAux]
    split
    case isTrue hg =>
      obtain ⟨m1, hm1⟩ := ih (scrapeRound heights extracts st)
      obtain ⟨m0, hm0⟩ := harvest_grows (extracts st.attempts) st.following
      refine ⟨m0 ++ m1, ?_⟩
      rw [hm1]
      have : (scrapeRound heights extracts st).following
          = harvest st.following (extracts st.attempts) := rfl
      rw [this, hm0, List.append_assoc]
    case isFalse hg => exact ⟨[], by simp⟩

end Stealth

namespace IndexTs

lemma scrollLoopAux_attempts_le (heights : Nat → Nat) (extracts : Nat → List Follower) :
    ∀ fuel st,
      (scrollLoopAux heights extracts fuel st).scrollAttempts ≤ max st.scrollAttempts 50 := by
  intro fuel
  induction fuel with
  | zero => intro st; exact Nat.le_max_left _ _
  | succ fuel ih =>
    intro st
    simp only [scrollLoopAux]
    split
    case isTrue h50 =>
      split
      case isTrue hEq =>
        split
        case isTrue hFin => exact Nat.le_max_left _ _
        case isFalse hFin =>
          refine le_trans (ih _) ?_
          simp only
          omega
      case isFalse hEq =>
        refine le_trans (ih _) ?_
        simp only
        omega
    case isFalse h50 => exact Nat.le_max_left _ _

lemma scrollLoopAux_followers_grows (heights : Nat → Nat) (extracts : Nat → List Follower) :
    ∀ fuel st, ∃ more,
      (scrollLoopAux heights extracts fuel st).followers = st.followers ++ more := by
  intro fuel
  induction fuel with
  | zero => intro st; exact ⟨[], by simp [scrollLoopAux]⟩
  | succ fuel ih =>
    intro st
    simp only [scrollLoopAux]
    split
    case isTrue h50 =>
      obtain ⟨m0, hm0⟩ := harvest_growsI (extracts st.scrollAttempts) st.followers
      split
      case isTrue hEq =>
        split
        case isTrue hFin => exact ⟨m0, hm0⟩
        case isFalse hFin =>
          obtain ⟨m1, hm1⟩ := ih
            { followers := harvest st.followers (extracts st.scrollAttempts),
              previousHeight := heights st.t,
              scrollAttempts := st.scrollAttempts + 1, t := st.t + 2 }
          refine ⟨m0 ++ m1, ?_⟩
          rw [hm1]
          simp only
          rw [hm0, List.append_assoc]
      case isFalse hEq =>
        obtain ⟨m1, hm1⟩ := ih
          { followers := harvest st.followers (extracts st.scrollAttempts),
            previousHeight := heights st.t,
            scrollAttempts := st.scrollAttempts + 1, t := st.t + 1 }
        refine ⟨m0 ++ m1, ?_⟩
        rw [hm1]
        simp only
        rw [hm0, List.append_assoc]
    case isFalse h50 => exact ⟨[], by simp⟩

end IndexTs

end SilverTik
namespace SilverTik

/-- C1: First-seen wins deduplication.  In both variants, for every list of
extracted records the accumulator built from the empty state keeps, for each
identity key, exactly the first extracted record with that key (for the
index.ts variant, for every non-empty key); and inserting a record whose key
is already stored is a no-op that neither duplicates nor overwrites the
stored record. -/
theorem dedup_first_seen_wins (rs : List Stealth.Follower)
    (rsI : List IndexTs.Follower) (k : String) (hk : ¬ (k = (""))) :
    (Stealth.harvest [] rs).filter (fun f => f.username == k)
        = (rs.filter (fun f => f.username == k)).take 1
    ∧ (∀ acc u, Stealth.hasKey acc u.username = true →
        Stealth.addUnique acc u = acc)
    ∧ (IndexTs.harvest [] rsI).filter (fun f => f.username == k)
        = (rsI.filter (fun f => f.username == k)).take 1
    ∧ (∀ acc u, IndexTs.hasKey acc u.username = true →
        IndexTs.addFollower acc u = acc) := by
  refine ⟨?_, ?_, ?_, ?_⟩
  · have h := Stealth.filter_harvest k rs []
    simpa [Stealth.hasKey] using h
  · exact fun acc u h => Stealth.addUnique_of_hasKey acc u h
  · have h := IndexTs.filter_harvestI k hk rsI []
    simpa [IndexTs.hasKey] using h
  · exact fun acc u h => IndexTs.addFollower_of_hasKey acc u h

/-- Witness for C1: two extracted records share the key `a`; the accumulator
keeps exactly the first of them. -/
theorem dedup_first_seen_wins_witness :
    (¬ (("a") = ("")))
    ∧ (Stealth.harvest []
          [({ username := ("a"), profileUrl := ("p1") } : Stealth.Follower),
           ({ username := ("a"), profileUrl := ("p2") } : Stealth.Follower)]).filter
            (fun f => f.username == ("a"))
        = ([({ username := ("a"), profileUrl := ("p1") } : Stealth.Follower),
            ({ username := ("a"), profileUrl := ("p2") } : Stealth.Follower)].filter
              (fun f => f.username == ("a"))).take 1 :=
  ⟨by decide,
   (dedup_first_seen_wins
      [({ username := ("a"), profileUrl := ("p1") } : Stealth.Follower),
       ({ username := ("a"), profileUrl := ("p2") } : Stealth.Follower)]
      [] ("a") (by decide)).1⟩

end SilverTik
namespace SilverTik

/-- C2 counterexample: in the stealth variant (`stagnationThreshold = 3`),
with the document height constantly `100` (so every round of the height
sequence `[100, 100, ...]` measures `100`) the loop does not terminate after
round 3: `previousHeight` starts at `0`, so the first measurement differs
from the baseline and only rounds 2 and 3 raise the streak, to 2 < 3. -/
theorem stagnation_round_three_counterexample :
    ¬ ((Stealth.scrapeLoop (fun _ => 100) (fun _ => [])).attempts = 3) := by
  decide

/-- C2 amended: each round measures the height after scroll-and-settle; an
unchanged measurement increments the streak and any change resets it to 0;
once the streak reaches 3 (or the round budget is exhausted) the loop stops
immediately; and for a constantly-100 document height the loop terminates
with `EndOfList` after round 4 (the first measurement differs from the
initial baseline height 0, so the streak starts counting at round 2). -/
theorem stagnation_streak_amended (heights : Nat → Nat)
    (extracts : Nat → List Stealth.Follower) (st : Stealth.ScrapeState)
    (fuel : Nat) :
    ((Stealth.scrapeRound heights extracts st).noNewFollowingCount
        = if heights st.attempts = st.previousHeight
          then st.noNewFollowingCount + 1 else 0)
    ∧ (Stealth.scrapeLoopAux heights extracts fuel st = st
        ∨ (st.attempts < 20 ∧ st.noNewFollowingCount < 3))
    ∧ (Stealth.scrapeLoop (fun _ => 100) (fun _ => [])).attempts = 4
    ∧ (Stealth.scrapeLoop (fun _ => 100) (fun _ => [])).noNewFollowingCount = 3
    ∧ Stealth.exitReasonOf (Stealth.scrapeLoop (fun _ => 100) (fun _ => []))
        = Stealth.ExitReason.endOfList := by
  refine ⟨rfl, ?_, by decide, by decide, by decide⟩
  by_cases hg : st.attempts < 20 ∧ st.noNewFollowingCount < 3
  · exact Or.inr hg
  · left
    cases fuel with
    | zero => rfl
    | succ fuel => simp only [Stealth.scrapeLoopAux, if_neg hg]

/-- C3: for every behaviour of the page (heights measured, records
extracted), both pagination loops halt within
`maxRounds + stagnationThreshold` rounds: the stealth loop
(`maxRounds = 20`, threshold 3) ends with at most 23 rounds elapsed and with
its while-guard false, and the index.ts loop (`maxScrollAttempts = 50`) ends
with at most 53 rounds elapsed. -/
theorem pagination_loop_bounded (heights : Nat → Nat)
    (extracts : Nat → List Stealth.Follower) (heightsI : Nat → Nat)
    (extractsI : Nat → List IndexTs.Follower) :
    (Stealth.scrapeLoop heights extracts).attempts ≤ 20 + 3
    ∧ ¬ ((Stealth.scrapeLoop heights extracts).attempts < 20 ∧
         (Stealth.scrapeLoop heights extracts).noNewFollowingCount < 3)
    ∧ (IndexTs.scrollLoop heightsI extractsI).scrollAttempts ≤ 50 + 3 := by
  refine ⟨?_, ?_, ?_⟩
  · exact le_trans
      (Stealth.scrapeLoopAux_attempts_le heights extracts 20 Stealth.initState)
      (by decide)
  · exact Stealth.scrapeLoopAux_guard_false heights extracts 20 Stealth.initState
      (by simp [Stealth.initState])
  · exact le_trans (IndexTs.scrollLoopAux_attempts_le heightsI extractsI 50
      { followers := [], previousHeight := 0, scrollAttempts := 0, t := 0 })
      (by decide)

/-- C4: extraction is idempotent.  Re-running an extraction pass over the
same records leaves the accumulator — and in particular its size — exactly
as it was after the first pass, for every starting accumulator, in both
variants. -/
theorem extraction_idempotent (acc rs : List Stealth.Follower)
    (accI rsI : List IndexTs.Follower) :
    Stealth.harvest (Stealth.harvest acc rs) rs = Stealth.harvest acc rs
    ∧ (Stealth.harvest (Stealth.harvest acc rs) rs).length
        = (Stealth.harvest acc rs).length
    ∧ IndexTs.harvest (IndexTs.harvest accI rsI) rsI = IndexTs.harvest accI rsI
    ∧ (IndexTs.harvest (IndexTs.harvest accI rsI) rsI).length
        = (IndexTs.harvest accI rsI).length := by
  refine ⟨Stealth.harvest_idem acc rs, ?_, IndexTs.harvest_idemI accI rsI, ?_⟩
  · rw [Stealth.harvest_idem acc rs]
  · rw [IndexTs.harvest_idemI accI rsI]

/-- C5: the accumulator grows monotonically.  One pagination round — and the
whole remaining loop — only ever appends to the accumulator: the prior
contents stay, unchanged and in place, the size never decreases, and every
record present before is present after.  Both variants. -/
theorem accumulator_monotone (heights : Nat → Nat)
    (extracts : Nat → List Stealth.Follower) (st : Stealth.ScrapeState)
    (fuel : Nat) (heightsI : Nat → Nat) (extractsI : Nat → List IndexTs.Follower)
    (stI : IndexTs.ScrollState) (fuelI : Nat) :
    (∃ more, (Stealth.scrapeRound heights extracts st).following
        = st.following ++ more)
    ∧ st.following.length
        ≤ (Stealth.scrapeRound heights extracts st).following.length
    ∧ (∀ f ∈ st.following, f ∈ (Stealth.scrapeRound heights extracts st).following)
    ∧ (∃ more, (Stealth.scrapeLoopAux heights extracts fuel st).following
        = st.following ++ more)
    ∧ st.following.length
        ≤ (Stealth.scrapeLoopAux heights extracts fuel st).following.length
    ∧ (∃ more, (IndexTs.scrollLoopAux heightsI extractsI fuelI stI).followers
        = stI.followers ++ more)
    ∧ stI.followers.length
        ≤ (IndexTs.scrollLoopAux heightsI extractsI fuelI stI).followers.length := by
  obtain ⟨m0, hm0⟩ := Stealth.harvest_grows (extracts st.attempts) st.following
  have hround : (Stealth.scrapeRound heights extracts st).following
      = st.following ++ m0 := hm0
  obtain ⟨m1, hm1⟩ := Stealth.scrapeLoopAux_following_grows heights extracts fuel st
  obtain ⟨m2, hm2⟩ := IndexTs.scrollLoopAux_followers_grows heightsI extractsI fuelI stI
  refine ⟨⟨m0, hround⟩, ?_, ?_, ⟨m1, hm1⟩, ?_, ⟨m2, hm2⟩, ?_⟩
  · rw [hround]; simp
  · intro f hf; rw [hround]; exact List.mem_append_left _ hf
  · rw [hm1]; simp
  · rw [hm2]; simp

end SilverTik
namespace SilverTik

/-- C6: the locator fallback tries candidates in their listed order and keeps
the first live match: for `[A, B, C]` with `A` not matching and `B`
matching, it returns `B`, attempts only `[A, B]` (never `C`), and in general
it returns the first candidate satisfying the page's match predicate. -/
theorem locator_fallback_order (pageMatch : String → Bool) (A B C : String)
    (hA : pageMatch A = false) (hB : pageMatch B = true) :
    IndexTs.resolve pageMatch [A, B, C] = some B
    ∧ IndexTs.resolveTrace pageMatch [A, B, C] = (some B, [A, B])
    ∧ (∀ cands, IndexTs.resolve pageMatch cands = cands.find? pageMatch) := by
  refine ⟨?_, ?_, ?_⟩
  · simp [IndexTs.resolve, hA, hB]
  · simp [IndexTs.resolveTrace, hA, hB]
  · intro cands
    induction cands with
    | nil => rfl
    | cons s rest ih =>
      cases hs : pageMatch s with
      | true => simp [IndexTs.resolve, List.find?, hs]
      | false => simp [IndexTs.resolve, List.find?, hs, ih]

/-- Witness for C6: with only the middle selector matching, `resolve`
returns it. -/
theorem locator_fallback_order_witness :
    ((fun s => s == ("B")) ("A") = false)
    ∧ ((fun s => s == ("B")) ("B") = true)
    ∧ IndexTs.resolve (fun s => s == ("B")) [("A"), ("B"), ("C")] = some ("B") :=
  ⟨by decide, by decide,
   (locator_fallback_order (fun s => s == ("B")) ("A") ("B") ("C")
      (by decide) (by decide)).1⟩

/-- C7 (code bug): the captcha marker stays for 61 s against the 60 s budget,
so `handleCaptcha` times out and returns `false` — but `login` discards that
result, and when the login button happens to be absent afterwards the
session proceeds as authenticated instead of ending `Failed` with
`CaptchaTimeout`. -/
theorem captcha_timeout_ignored :
    Stealth.handleCaptcha (some 61) = false
    ∧ Stealth.login true (some 61) false = true
    ∧ Stealth.sessionAfterLogin true (some 61) false
        = Stealth.SessionResult.authenticated := by
  refine ⟨by decide, by decide, by decide⟩

/-- C8 counterexample: with all three environment variables missing,
index.ts still launches the browser and navigates to the login page before
the presence check fails. -/
theorem config_check_after_launch_counterexample :
    IndexTs.scrapeFollowersTrace none none none
      = [Event.launchBrowser, Event.navigateLogin, Event.configCheckFailed]
    ∧ Event.launchBrowser ∈ IndexTs.scrapeFollowersTrace none none none
    ∧ Event.navigateLogin ∈ IndexTs.scrapeFollowersTrace none none none := by
  refine ⟨by decide, by decide, by decide⟩

/-- C8 amended: with any required configuration value missing (or empty),
the stealth variant fails before any browser interaction — its trace is just
the failed check, with no launch — while the index.ts variant launches the
browser and navigates to the login page first and only then fails the
presence check (before any credential entry). -/
theorem config_check_amended (u p t : Option String)
    (h : (truthy u && truthy p && truthy t) = false) :
    Stealth.mainTrace u p t = [Event.configCheckFailed]
    ∧ ¬ (Event.launchBrowser ∈ Stealth.mainTrace u p t)
    ∧ IndexTs.scrapeFollowersTrace u p t
        = [Event.launchBrowser, Event.navigateLogin, Event.configCheckFailed] := by
  refine ⟨?_, ?_, ?_⟩
  · simp [Stealth.mainTrace, h]
  · simp [Stealth.mainTrace, h]
  · simp [IndexTs.scrapeFollowersTrace, h]

/-- Witness for C8's amended statement: all variables unset. -/
theorem config_check_amended_witness :
    ((truthy none && truthy none && truthy none) = false)
    ∧ Stealth.mainTrace none none none = [Event.configCheckFailed] :=
  ⟨by decide, (config_check_amended none none none (by decide)).1⟩

/-- C9 counterexample: in the stealth variant a candidate with no link (so
no determinable username) is extracted with the empty identity key and is
inserted into the accumulator rather than dropped. -/
theorem empty_key_inserted_counterexample :
    (Stealth.extractItem none).username = ("")
    ∧ Stealth.harvest [] [Stealth.extractItem none]
        = [{ username := (""), profileUrl := ("") }]
    ∧ (Stealth.harvest [] [Stealth.extractItem none]).length = 1 := by
  refine ⟨by decide, by decide, by decide⟩

/-- C9 amended: the index.ts variant drops a candidate whose username is
empty — every record its accumulator ever stores has a non-empty identity
key — while the stealth variant inserts a record with the empty identity key
whenever none is stored yet (dedup still caps it at one such record). -/
theorem identity_key_amended (rs acc : List IndexTs.Follower)
    (u : IndexTs.Follower) (hu : u.username = (""))
    (accS : List Stealth.Follower) (uS : Stealth.Follower)
    (huS : uS.username = ("")) (hab : Stealth.hasKey accS ("") = false) :
    IndexTs.addFollower acc u = acc
    ∧ (∀ f ∈ IndexTs.harvest [] rs, ¬ (f.username = ("")))
    ∧ Stealth.addUnique accS uS = accS ++ [uS] := by
  refine ⟨IndexTs.addFollower_of_empty acc u hu, ?_, ?_⟩
  · exact IndexTs.harvest_keys_ne_empty rs [] (by simp)
  · have hc : (accS.any fun f => f.username == uS.username) = false := by
      rw [huS]; exact hab
    simp [Stealth.addUnique, hc]

/-- Witness for C9's amended statement: an empty-key record is rejected by
the index.ts insertion. -/
theorem identity_key_amended_witness :
    (({ username := (""), nickname := ("n"), profileUrl := ("p") } :
        IndexTs.Follower).username = (""))
    ∧ IndexTs.addFollower []
        { username := (""), nickname := ("n"), profileUrl := ("p") } = [] :=
  ⟨by decide,
   (identity_key_amended [] []
      { username := (""), nickname := ("n"), profileUrl := ("p") } (by decide)
      [] { username := (""), profileUrl := ("") } (by decide) (by decide)).1⟩

/-- C10 counterexample: calling `scrapeFollowing` with the page not
initialised raises the guard's error to the caller — the one exception the
`try` block does not cover. -/
theorem no_browser_error_propagates_counterexample :
    Stealth.scrapeFollowingExc false (Except.ok [])
      = Except.error Stealth.ScrapeError.noBrowser := rfl

/-- C10 amended: once the page is initialised, `scrapeFollowing` propagates
no exception: any error raised inside the `try` — selector waits or round
failures — is caught and the empty list returned, discarding whatever had
been harvested; only the browser-not-initialised guard, which precedes the
`try`, still throws to the caller. -/
theorem scrape_errors_amended (e : Stealth.ScrapeError)
    (hv l : List Stealth.Follower)
    (body : Except (Stealth.ScrapeError × List Stealth.Follower)
      (List Stealth.Follower)) :
    Stealth.scrapeFollowingExc true (Except.error (e, hv)) = Except.ok []
    ∧ Stealth.scrapeFollowingExc true (Except.ok l) = Except.ok l
    ∧ Stealth.scrapeFollowingExc false body
        = Except.error Stealth.ScrapeError.noBrowser :=
  ⟨rfl, rfl, rfl⟩

end SilverTik
